import Mathlib

/-!
Verification of the oneDriveRag pipeline (src/main.py).

This file gives a shallow embedding of the pure and contract-level parts of
main.py: the word chunker chunk_text, the retriever retrieve_similar_chunks,
the answer composer query_gemini, the ingestion endpoint
process_onedrive_document, and the two aggregation endpoints
datatransformation and datatransformation_summary.

External collaborators (the OneDrive loader, the sentence-transformer
encoder, the Pinecone index, the Gemini HTTP service) are modelled as
environment records supplying their observable results; the embedded
functions reproduce the Python control flow over those results.  Python
strings are modelled by Lean strings, Python floats by rationals (the
aggregation claims are about which values are summed, not float rounding),
and a Python function that can raise is modelled with Except.
-/

set_option maxRecDepth 16384

namespace OneDriveRag

/-- Helper for the Python whitespace split: walks the character list,
accumulating the current word in reverse; a whitespace character closes the
current word (if any), and trailing characters close the last word. -/
def pyWordsAux : List Char → List Char → List (List Char)
  | [], cur => if cur.isEmpty then [] else [cur.reverse]
  | c :: cs, cur =>
    if c.isWhitespace then
      if cur.isEmpty then pyWordsAux cs [] else cur.reverse :: pyWordsAux cs []
    else pyWordsAux cs (c :: cur)

/-- Python str.split() with no separator argument: split on runs of
whitespace and discard empty pieces.  This models the call text.split()
in chunk_text of main.py. -/
def pySplit (s : String) : List String :=
  (pyWordsAux s.data []).map String.mk

/-- Python range(start, stop, step) for positive step, as the list of its
elements: start + k * step for k below the iteration count
ceil((stop - start) / step), which is (stop - start + step - 1) / step in
truncated natural division (CPython computes the same length).  The
ValueError that range raises for step = 0 is handled by the caller, see
chunk_text. -/
def pyRange (start stop step : Nat) : List Nat :=
  (List.range ((stop - start + step - 1) / step)).map (fun k => start + k * step)

/-- Embedding of chunk_text from main.py:

```python
def chunk_text(text, chunk_size=500):
    chunks = []
    words = text.split()
    for i in range(0, len(words), chunk_size // 2):
        chunk = " ".join(words[i:i + chunk_size])
        chunks.append(chunk)
    return chunks
```

Python slicing words[i:i + chunk_size] is (words.drop i).take chunk_size,
and " ".join is String.intercalate " ".  When chunk_size // 2 = 0 the
range call raises ValueError, modelled by the error branch.  The Python
default argument is chunk_size = 500; call sites pass it explicitly. -/
def chunk_text (text : String) (chunk_size : Nat) : Except String (List String) :=
  let words := pySplit text
  if chunk_size / 2 = 0 then
    .error "ValueError: range() arg 3 must not be zero"
  else
    .ok ((pyRange 0 words.length (chunk_size / 2)).map
      (fun i => String.intercalate " " ((words.drop i).take chunk_size)))

/-- Spec-side definition (for the refinement claim C5), following the
words of the spec: extract each text field in ranked order and join with a
newline separator into one string.  Compared below with the source-side
String.intercalate used by retrieve_similar_chunks. -/
def specNewlineJoin : List String → String
  | [] => ""
  | [t] => t
  | t :: ts => t ++ "\n" ++ specNewlineJoin ts

/-- One match returned by index.query(..., include_metadata=True): a record
id, a similarity score, and the metadata text field that main.py reads. -/
structure QueryMatch where
  id : String
  score : Int
  text : String

/-- Environment for retrieve_similar_chunks: the sentence-transformer
encoder (one vector for the single-query batch) and the Pinecone index
query, returning the ranked match list for a vector and a top_k bound. -/
structure RetrievalEnv where
  encode : String → List Int
  indexQuery : List Int → Nat → List QueryMatch

/-- Embedding of retrieve_similar_chunks from main.py:

```python
def retrieve_similar_chunks(query, embedding_model, top_k=3):
    query_embedding = embedding_model.encode([query], convert_to_numpy=True).tolist()
    results = index.query(vector=query_embedding, top_k=top_k, include_metadata=True)
    retrieved_texts = [match["metadata"]["text"] for match in results.get("matches", [])]
    return "\n".join(retrieved_texts)
```

The list comprehension preserves the ranked order of the matches; a missing
or empty matches key is the empty list. -/
def retrieve_similar_chunks (env : RetrievalEnv) (query : String) (top_k : Nat) : String :=
  let query_embedding := env.encode query
  let results := env.indexQuery query_embedding top_k
  let retrieved_texts := results.map (fun m => m.text)
  String.intercalate "\n" retrieved_texts

/-- One HTTP response from the Gemini service: the status code, the raw
body text (response.text), and the answer string extracted by
response.json()["candidates"][0]["content"]["parts"][0]["text"] when that
extraction succeeds (none models a malformed body, where the Python
subscripting would raise). -/
structure GeminiResponse where
  status_code : Nat
  text : String
  candidatesText : Option String

/-- Environment for query_gemini: the outcome of requests.post on the
payload text built by the function. -/
structure GeminiEnv where
  post : String → GeminiResponse

/-- Prompt text query_gemini sends, mirroring its f-string. -/
def geminiPrompt (query context : String) : String :=
  "Give an overall answer for the following context:\n" ++ context ++
    "\n\nUser Question: " ++ query ++
    ". if there is not context in the document written 'No answer found'"

/-- Embedding of query_gemini from main.py:

```python
def query_gemini(query, context):
    ...
    response = requests.post(url, json=payload, headers=headers)
    if response.status_code == 200:
        return response.json()["candidates"][0]["content"]["parts"][0]["text"]
    else:
        return f"Error: {response.text}"
```

On status 200 the nested subscripting can raise (malformed body), modelled
by the error branch; on any other status the function returns the error
string built from the raw body. -/
def query_gemini (env : GeminiEnv) (query context : String) : Except String String :=
  let response := env.post (geminiPrompt query context)
  if response.status_code = 200 then
    match response.candidatesText with
    | some t => .ok t
    | none => .error "KeyError"
  else
    .ok ("Error: " ++ response.text)

/-- Python truthiness of an optional string field read with dict.get: None
and the empty string are falsy. -/
def pyTruthyStr : Option String → Bool
  | none => false
  | some s => !s.isEmpty

/-- One record passed to index.upsert: the id f-string, the embedding
vector, and the metadata text field. -/
structure PineconeRecord where
  id : String
  vector : List Int
  text : String

/-- Environment for process_onedrive_document: the OneDrive load result
(the joined page contents of the fetched document, or an exception), the
batch encoder over the chunk list (one vector per chunk, or an exception
such as a model-load failure), and the per-record index.upsert outcome. -/
structure IngestEnv where
  load : Except String String
  encode : List String → Except String (List (List Int))
  upsert : PineconeRecord → Except String Unit

/-- Record id built in the upsert loop: the Python f-string two names
joined by an underscore, id f of object_id and i. -/
def recordId (object_id : String) (i : Nat) : String :=
  object_id ++ "_" ++ toString i

/-- The per-chunk upsert loop of process_onedrive_document:

```python
for i, (chunk, embedding) in enumerate(zip(text_chunks, embeddings)):
    index.upsert([(f"{object_id}_{i}", embedding.tolist(), {"text": chunk})])
```

Returns the records successfully upserted, in order, and the message of the
first upsert exception if one occurs (which aborts the loop). -/
def upsertChunks (env : IngestEnv) (object_id : String) :
    List (String × List Int) → Nat → List PineconeRecord × Option String
  | [], _ => ([], none)
  | (chunk, embedding) :: rest, i =>
    let r : PineconeRecord := ⟨recordId object_id i, embedding, chunk⟩
    match env.upsert r with
    | .ok _ =>
      let tail := upsertChunks env object_id rest (i + 1)
      (r :: tail.1, tail.2)
    | .error e => ([], some e)

/-- Description of the records the upsert loop builds for a pair list
starting at index i: one record per (chunk, embedding) pair, ids in
chunk-index order. -/
def ingestRecords (object_id : String) : List (String × List Int) → Nat → List PineconeRecord
  | [], _ => []
  | (chunk, embedding) :: rest, i =>
    ⟨recordId object_id i, embedding, chunk⟩ :: ingestRecords object_id rest (i + 1)

/-- Observable outcome of one call to the /process_onedrive_document
endpoint: the HTTP status of the response, its detail or message string,
and the list of upsert calls performed on the index, in order. -/
structure IngestResult where
  status : Nat
  detail : String
  upserts : List PineconeRecord

/-- Embedding of the /process_onedrive_document endpoint of main.py.  The
whole handler body is inside a try whose handler is

```python
except Exception as e:
    logging.error(f"Error processing OneDrive document: {str(e)}")
    raise HTTPException(status_code=500, detail=f"Internal Server Error: {str(e)}")
```

Because HTTPException derives from Exception, the HTTPException(400, ...)
raised for a missing drive_id or object_id is caught by this handler and
re-raised as a 500 whose detail wraps str(e), which Starlette renders as
"400: <detail>".  Any exception from the loader, the chunker, the encoder
or an upsert likewise becomes a 500.  On success the endpoint returns 200
with the success message. -/
def process_onedrive_document (env : IngestEnv) (drive_id object_id : Option String) :
    IngestResult :=
  if !pyTruthyStr drive_id || !pyTruthyStr object_id then
    ⟨500,
      "Internal Server Error: 400: Missing 'drive_id' or 'object_id' in the request body.",
      []⟩
  else
    match env.load with
    | .error e => ⟨500, "Internal Server Error: " ++ e, []⟩
    | .ok document_text =>
      match chunk_text document_text 500 with
      | .error e => ⟨500, "Internal Server Error: " ++ e, []⟩
      | .ok text_chunks =>
        match env.encode text_chunks with
        | .error e => ⟨500, "Internal Server Error: " ++ e, []⟩
        | .ok embeddings =>
          match upsertChunks env (object_id.getD "") (text_chunks.zip embeddings) 0 with
          | (recs, none) =>
            ⟨200, "Document processed and embeddings stored successfully.", recs⟩
          | (recs, some e) => ⟨500, "Internal Server Error: " ++ e, recs⟩

/-- Outcome of Python float(x) on a field value: a numeric result, or an
exception (unparsable string, or a value float rejects). -/
inductive PyFloatResult where
  | val (q : ℚ)
  | err

/-- One input record of the aggregation endpoints: the application name
field (none when the key is missing) and the execution duration field
(none when the key is missing; otherwise the outcome of float() on it). -/
structure DataRecord where
  appName : Option String
  duration : Option PyFloatResult

/-- The value of item.get("application name", "") in main.py. -/
def itemAppName (r : DataRecord) : String :=
  r.appName.getD ""

/-- The duration contributed by one record:

```python
try:
    exec_duration = float(item.get("execution duration", 0))
except Exception:
    exec_duration = 0
```

A missing field defaults to 0 (and float(0) is 0), and an unparsable field
raises, so the except arm also contributes 0. -/
def itemDuration (r : DataRecord) : ℚ :=
  match r.duration with
  | none => 0
  | some (.val q) => q
  | some .err => 0

/-- Python dict update duration_map[k] = duration_map.get(k, 0) + v on an
insertion-ordered dict, modelled on an association list: add v to the entry
of k if present, else append (k, v) at the end. -/
def dictAdd : List (String × ℚ) → String → ℚ → List (String × ℚ)
  | [], k, v => [(k, v)]
  | (k0, v0) :: rest, k, v =>
    if k0 == k then (k0, v0 + v) :: rest else (k0, v0) :: dictAdd rest k v

/-- Embedding of the /datatransformation endpoint loop of main.py: every
record is aggregated, a record with a missing application name under the
empty-string key (item.get("application name", "")). -/
def datatransformation (records : List DataRecord) : List (String × ℚ) :=
  records.foldl (fun m item => dictAdd m (itemAppName item) (itemDuration item)) []

/-- Embedding of the /datatransformation_summary endpoint loop of main.py:
identical to datatransformation except for the guard

```python
if app_name:
    duration_map[app_name] = duration_map.get(app_name, 0) + exec_duration
```

which skips records whose application name is falsy (missing or empty). -/
def datatransformation_summary (records : List DataRecord) : List (String × ℚ) :=
  records.foldl
    (fun m item =>
      if itemAppName item == "" then m
      else dictAdd m (itemAppName item) (itemDuration item)) []

/-- Concrete 300-word text used to refute claim C1: 300 words is fewer
than the default chunk_size of 500, yet more than 500 // 2 = 250, so the
loop runs twice. -/
def c1Text : String :=
  String.intercalate " " (List.replicate 300 "w")

/-! Helper lemmas about the chunker. -/

/-- A chunk size of at least 2 makes the loop step positive. -/
lemma stepPos {cs : Nat} (h : 2 ≤ cs) : 0 < cs / 2 :=
  (Nat.le_div_iff_mul_le (by norm_num)).mpr (by omega)

/-- Index arithmetic for the iteration count of range(0, len, step). -/
lemma lt_iterCount_iff {len step : Nat} (hstep : 0 < step) (k : Nat) :
    k < (len + step - 1) / step ↔ k * step < len := by
  rw [Nat.lt_iff_add_one_le, Nat.le_div_iff_mul_le hstep, add_one_mul]
  omega

/-- Closed form of chunk_text when the step is positive: one window of up
to chunk_size words starting at every multiple of the step. -/
lemma chunk_text_eq_ok (text : String) (cs : Nat) (h : cs / 2 ≠ 0) :
    chunk_text text cs =
      .ok ((List.range (((pySplit text).length + cs / 2 - 1) / (cs / 2))).map
        (fun k => String.intercalate " " (((pySplit text).drop (k * (cs / 2))).take cs))) := by
  simp only [chunk_text, pyRange, if_neg h, List.map_map, Nat.sub_zero, Function.comp,
    Nat.zero_add]
  rfl

/-- Element description of the window list produced by chunk_text. -/
lemma windows_getElem (ws : List String) (cs : Nat) (hstep : 0 < cs / 2) (k : Nat) :
    ((List.range ((ws.length + cs / 2 - 1) / (cs / 2))).map
      (fun i => String.intercalate " " ((ws.drop (i * (cs / 2))).take cs)))[k]? =
      if k * (cs / 2) < ws.length then
        some (String.intercalate " " ((ws.drop (k * (cs / 2))).take cs))
      else none := by
  rw [List.getElem?_map]
  by_cases hk : k * (cs / 2) < ws.length
  · rw [List.getElem?_range ((lt_iterCount_iff hstep k).mpr hk), if_pos hk]
    rfl
  · rw [if_neg hk, List.getElem?_eq_none, Option.map_none']
    rw [List.length_range]
    exact Nat.le_of_not_lt (fun hlt => hk ((lt_iterCount_iff hstep k).mp hlt))

/-- Dropping the first half of one window is taking the first half of the
next window: the 50 percent overlap, as a list identity. -/
lemma window_overlap (ws : List String) (a s : Nat) :
    ((ws.drop a).take (s + s)).drop s = ((ws.drop (a + s)).take (s + s)).take s := by
  rw [List.drop_take, List.drop_drop, List.take_take]
  have h1 : s + s - s = s := by omega
  have h2 : min s (s + s) = s := by omega
  rw [h1, h2]

/-- Concatenating the first s words of each of the first n windows yields
the first n * s words. -/
lemma flatten_take_windows (ws : List String) (s : Nat) :
    ∀ n, ((List.range n).map (fun k => (ws.drop (k * s)).take s)).flatten = ws.take (n * s) := by
  intro n
  induction n with
  | zero => simp
  | succ n ih =>
    rw [List.range_succ, List.map_append, List.flatten_append]
    simp only [List.map_cons, List.map_nil, List.flatten_cons, List.flatten_nil,
      List.append_nil, ih]
    rw [show (n + 1) * s = n * s + s by ring, List.take_add]

/-! Claim C1 (corrected). -/

/-- Claim C1, counterexample: the text of 300 words (fewer than the
default chunk_size of 500, and non-empty) is split by
chunk_text(text, 500) into two chunks, not one, because the loop also
starts a window at word 250. -/
theorem chunk_text_one_chunk_cex :
    0 < (pySplit c1Text).length ∧ (pySplit c1Text).length < 500 ∧
      (chunk_text c1Text 500).map List.length = .ok 2 :=
  ⟨by decide, by decide, by rfl⟩

/-- Claim C1 as amended: for every text whose word list is non-empty and
has at most chunk_size // 2 words (chunk_size at least 2), chunk_text
produces exactly one chunk, the words rejoined with single spaces. -/
theorem chunk_text_single_chunk (text : String) (cs : Nat) (h2 : 2 ≤ cs)
    (hpos : 0 < (pySplit text).length) (hle : (pySplit text).length ≤ cs / 2) :
    chunk_text text cs = .ok [String.intercalate " " (pySplit text)] := by
  have hstep : 0 < cs / 2 := stepPos h2
  rw [chunk_text_eq_ok text cs hstep.ne']
  have hn : ((pySplit text).length + cs / 2 - 1) / (cs / 2) = 1 := by
    have h0 : 0 < ((pySplit text).length + cs / 2 - 1) / (cs / 2) :=
      (lt_iterCount_iff hstep 0).mpr (by simpa using hpos)
    have h1 : ¬ 1 < ((pySplit text).length + cs / 2 - 1) / (cs / 2) := by
      intro hlt
      have := (lt_iterCount_iff hstep 1).mp hlt
      omega
    omega
  rw [hn, show List.range 1 = [0] from rfl, List.map_singleton, Nat.zero_mul, List.drop_zero,
    List.take_of_length_le (le_trans hle (Nat.div_le_self cs 2))]

/-- Witness for the amended claim C1 at the two-word text. -/
theorem chunk_text_single_chunk_witness :
    (0 < (pySplit "a b").length ∧ (pySplit "a b").length ≤ 5 / 2) ∧
      chunk_text "a b" 5 = .ok ["a b"] :=
  ⟨⟨by decide, by decide⟩, chunk_text_single_chunk "a b" 5 (by norm_num) (by decide) (by decide)⟩

/-! Claim C3 (confirmed). -/

/-- Claim C3: for chunk_size at least 2, chunk_text succeeds and its k-th
chunk is the space-join of the words from position k * (chunk_size // 2)
up to chunk_size consecutive words, for every k with a window start below
the word count; for the empty text the result is the empty sequence. -/
theorem chunk_text_windows (text : String) (cs : Nat) (h2 : 2 ≤ cs) :
    ∃ l, chunk_text text cs = .ok l ∧
      (∀ k : Nat, l[k]? =
        if k * (cs / 2) < (pySplit text).length then
          some (String.intercalate " " (((pySplit text).drop (k * (cs / 2))).take cs))
        else none) ∧
      (text = "" → l = []) := by
  have hstep : 0 < cs / 2 := stepPos h2
  refine ⟨_, chunk_text_eq_ok text cs hstep.ne', ?_, ?_⟩
  · intro k
    exact windows_getElem (pySplit text) cs hstep k
  · intro ht
    subst ht
    have hz : pySplit "" = [] := rfl
    rw [hz]
    have : (([] : List String).length + cs / 2 - 1) / (cs / 2) = 0 :=
      Nat.div_eq_of_lt (by simp; omega)
    rw [this, List.range_zero, List.map_nil]

/-- Witness for claim C3 at the text of three words with chunk_size 2. -/
theorem chunk_text_windows_witness :
    chunk_text "a b c" 2 = .ok ["a b", "b c", "c"] ∧
      (∃ l, chunk_text "a b c" 2 = .ok l ∧
        (∀ k : Nat, l[k]? =
          if k * (2 / 2) < (pySplit "a b c").length then
            some (String.intercalate " " (((pySplit "a b c").drop (k * (2 / 2))).take 2))
          else none) ∧
        ("a b c" = "" → l = [])) :=
  ⟨by rfl, chunk_text_windows "a b c" 2 (by norm_num)⟩

/-! Claim C9 (confirmed). -/

/-- Claim C9: chunk_text raises for chunk_size 0 or 1 (range step
chunk_size // 2 is zero, a ValueError in Python), for every text
including the empty one, and is total exactly under the precondition
chunk_size at least 2. -/
theorem chunk_text_step_zero (text : String) (cs : Nat) :
    (cs < 2 → chunk_text text cs = .error "ValueError: range() arg 3 must not be zero") ∧
    (2 ≤ cs → ∃ l, chunk_text text cs = .ok l) := by
  constructor
  · intro h
    simp only [chunk_text, Nat.div_eq_of_lt h, eq_self_iff_true, if_true]
  · intro h
    exact ⟨_, chunk_text_eq_ok text cs (stepPos h).ne'⟩

/-- Witness for claim C9: chunk_size 1 (a positive integer) raises, and
chunk_size 2 succeeds, on the same two-word text; also at the empty text
with chunk_size 0. -/
theorem chunk_text_step_zero_witness :
    chunk_text "a b" 1 = .error "ValueError: range() arg 3 must not be zero" ∧
      (∃ l, chunk_text "a b" 2 = .ok l) ∧
      chunk_text "" 0 = .error "ValueError: range() arg 3 must not be zero" :=
  ⟨(chunk_text_step_zero "a b" 1).1 (by norm_num),
   (chunk_text_step_zero "a b" 2).2 (by norm_num),
   (chunk_text_step_zero "" 0).1 (by norm_num)⟩

/-! Claim C4 (confirmed). -/

/-- Claim C4: for every non-empty text and chunk_size 500, chunk_text
yields a non-empty chunk list where the k-th chunk is the contiguous
window of up to 500 words starting at word 250 k (so words are never
reordered, dropped or invented), the second half of each window is exactly
the first half of the next (the 50 percent overlap region appears in two
consecutive chunks), and taking the first 250 words of every window (the
overlap-deduplicated rejoin) recovers the original word sequence. -/
theorem chunk_text_overlap (text : String) (hne : pySplit text ≠ []) :
    ∃ l, chunk_text text 500 = .ok l ∧ l ≠ [] ∧
      (∀ k : Nat, l[k]? =
        if k * 250 < (pySplit text).length then
          some (String.intercalate " " (((pySplit text).drop (k * 250)).take 500))
        else none) ∧
      (∀ k : Nat, (((pySplit text).drop (k * 250)).take 500).drop 250 =
        (((pySplit text).drop ((k + 1) * 250)).take 500).take 250) ∧
      ((List.range l.length).map (fun k => ((pySplit text).drop (k * 250)).take 250)).flatten =
        pySplit text := by
  have h250 : (500 : ℕ) / 2 = 250 := by norm_num
  have hstep : 0 < (500 : ℕ) / 2 := by norm_num
  have hpos : 0 < (pySplit text).length := List.length_pos.mpr hne
  refine ⟨_, chunk_text_eq_ok text 500 (by norm_num), ?_, ?_, ?_, ?_⟩
  · simp only [ne_eq, List.map_eq_nil_iff, List.range_eq_nil]
    intro h0
    have := (lt_iterCount_iff hstep 0).mpr (by simpa using hpos)
    omega
  · intro k
    have := windows_getElem (pySplit text) 500 hstep k
    rw [h250] at this
    exact this
  · intro k
    have := window_overlap (pySplit text) (k * 250) 250
    rw [show (250 : ℕ) + 250 = 500 by norm_num] at this
    rw [this, show (k + 1) * 250 = k * 250 + 250 by ring]
  · rw [List.length_map, List.length_range, h250]
    rw [flatten_take_windows (pySplit text) 250]
    apply List.take_of_length_le
    by_contra hlt
    have := (lt_iterCount_iff (by norm_num : (0:ℕ) < 250)
      (((pySplit text).length + 250 - 1) / 250)).mpr (Nat.lt_of_not_le hlt)
    omega

/-- Witness for claim C4 at a two-word text. -/
theorem chunk_text_overlap_witness :
    pySplit "hello world" ≠ [] ∧
      (∃ l, chunk_text "hello world" 500 = .ok l ∧ l ≠ [] ∧
        (∀ k : Nat, l[k]? =
          if k * 250 < (pySplit "hello world").length then
            some (String.intercalate " " (((pySplit "hello world").drop (k * 250)).take 500))
          else none) ∧
        (∀ k : Nat, (((pySplit "hello world").drop (k * 250)).take 500).drop 250 =
          (((pySplit "hello world").drop ((k + 1) * 250)).take 500).take 250) ∧
        ((List.range l.length).map
          (fun k => ((pySplit "hello world").drop (k * 250)).take 250)).flatten =
          pySplit "hello world") :=
  ⟨by decide, chunk_text_overlap "hello world" (by decide)⟩

/-! Claim C5 (confirmed): the retriever refines the spec-side join. -/

/-- Source-side String.intercalate with a newline separator agrees with
the spec-side join specNewlineJoin. -/
lemma intercalate_newline (l : List String) : String.intercalate "\n" l = specNewlineJoin l := by
  cases l with
  | nil => rfl
  | cons a as =>
    show String.intercalate.go a "\n" as = specNewlineJoin (a :: as)
    induction as generalizing a with
    | nil => rfl
    | cons b bs ih =>
      show String.intercalate.go (a ++ "\n" ++ b) "\n" bs = specNewlineJoin (a :: b :: bs)
      rw [ih (a ++ "\n" ++ b)]
      cases bs with
      | nil => rfl
      | cons c cs => simp [specNewlineJoin, String.append_assoc]

/-- Claim C5: retrieve_similar_chunks returns the text metadata fields of
the matches the index returned, joined with a newline separator in ranked
order, and the empty match list yields the empty string (a value, not an
error). -/
theorem retrieve_similar_chunks_spec (env : RetrievalEnv) (query : String) (top_k : Nat) :
    retrieve_similar_chunks env query top_k =
      specNewlineJoin ((env.indexQuery (env.encode query) top_k).map (fun m => m.text)) ∧
    (env.indexQuery (env.encode query) top_k = [] →
      retrieve_similar_chunks env query top_k = "") := by
  constructor
  · exact intercalate_newline _
  · intro h
    simp only [retrieve_similar_chunks, h, List.map_nil]
    rfl

/-- Retrieval environment whose index returns two ranked matches. -/
def demoRetrievalEnv : RetrievalEnv :=
  ⟨fun _ => [0], fun _ _ => [⟨"r1", 9, "alpha"⟩, ⟨"r2", 8, "beta"⟩]⟩

/-- Retrieval environment whose index returns no matches. -/
def emptyRetrievalEnv : RetrievalEnv :=
  ⟨fun _ => [0], fun _ _ => []⟩

/-- Witness for claim C5: two ranked matches joined with one newline, and
the empty index giving the empty string. -/
theorem retrieve_similar_chunks_spec_witness :
    retrieve_similar_chunks demoRetrievalEnv "q" 3 = "alpha\nbeta" ∧
      retrieve_similar_chunks demoRetrievalEnv "q" 3 =
        specNewlineJoin
          ((demoRetrievalEnv.indexQuery (demoRetrievalEnv.encode "q") 3).map (fun m => m.text)) ∧
      retrieve_similar_chunks emptyRetrievalEnv "q" 3 = "" :=
  ⟨by rfl, (retrieve_similar_chunks_spec demoRetrievalEnv "q" 3).1,
   (retrieve_similar_chunks_spec emptyRetrievalEnv "q" 3).2 rfl⟩

/-! Claim C6 (confirmed). -/

/-- Claim C6: on every non-200 response of the generative service,
query_gemini returns (rather than raises) the descriptive string built
from the raw response body, and that body is contained in the returned
string (as a suffix of its character data). -/
theorem query_gemini_error_string (env : GeminiEnv) (query context : String)
    (h : (env.post (geminiPrompt query context)).status_code ≠ 200) :
    query_gemini env query context =
      .ok ("Error: " ++ (env.post (geminiPrompt query context)).text) ∧
    ((env.post (geminiPrompt query context)).text).data <:+
      ("Error: " ++ (env.post (geminiPrompt query context)).text).data := by
  constructor
  · simp [query_gemini, if_neg h]
  · exact ⟨("Error: ").data, (String.data_append _ _).symm⟩

/-- Gemini environment answering every request with status 500 and the
body boom. -/
def failGeminiEnv : GeminiEnv :=
  ⟨fun _ => ⟨500, "boom", none⟩⟩

/-- Witness for claim C6 at the failing environment. -/
theorem query_gemini_error_string_witness :
    query_gemini failGeminiEnv "q" "c" = .ok "Error: boom" ∧
      ("boom").data <:+ ("Error: boom").data :=
  ⟨(query_gemini_error_string failGeminiEnv "q" "c" (by decide)).1,
   (query_gemini_error_string failGeminiEnv "q" "c" (by decide)).2⟩

/-! Helper lemmas about the ingestion endpoint. -/

/-- A non-empty string field is truthy in Python. -/
lemma pyTruthyStr_some {s : String} (h : s ≠ "") : pyTruthyStr (some s) = true := by
  have he : s.isEmpty = false := by
    rcases hb : s.isEmpty with _ | _
    · rfl
    · exact absurd ((String.isEmpty_iff s).mp hb) h
  simp [pyTruthyStr, he]

/-- Record ids of the loop records: chunk-index order starting at i. -/
lemma ingestRecords_map_id (oid : String) :
    ∀ (ps : List (String × List Int)) (i : Nat),
      (ingestRecords oid ps i).map (fun r => r.id) =
        (List.range ps.length).map (fun k => recordId oid (i + k)) := by
  intro ps
  induction ps with
  | nil => intro i; rfl
  | cons p rest ih =>
    intro i
    obtain ⟨c, e⟩ := p
    simp only [ingestRecords, List.map_cons, ih (i + 1), List.length_cons,
      List.range_succ_eq_map, List.map_cons, List.map_map]
    refine List.cons_eq_cons.mpr ⟨by rw [Nat.add_zero], ?_⟩
    apply List.map_congr_left
    intro k _
    simp only [Function.comp_apply]
    congr 1
    omega

/-- If every upsert before offset j succeeds and the one at offset j
raises, the loop performs exactly the upserts before j, in order, and
stops with the error of the one at j. -/
lemma upsertChunks_fail (env : IngestEnv) (oid : String) :
    ∀ (pairs : List (String × List Int)) (i j : Nat) (err : String),
      j < pairs.length →
      (∀ k, k < j → ∀ p, pairs[k]? = some p →
        env.upsert ⟨recordId oid (i + k), p.2, p.1⟩ = .ok ()) →
      (∀ p, pairs[j]? = some p → env.upsert ⟨recordId oid (i + j), p.2, p.1⟩ = .error err) →
      upsertChunks env oid pairs i = (ingestRecords oid (pairs.take j) i, some err) := by
  intro pairs
  induction pairs with
  | nil => intro i j err hj _ _; exact absurd hj (by simp)
  | cons p rest ih =>
    intro i j err hj hok hfail
    obtain ⟨c, e⟩ := p
    cases j with
    | zero =>
      have hf : env.upsert ⟨recordId oid i, e, c⟩ = .error err := by
        have := hfail (c, e) (by simp)
        rwa [Nat.add_zero] at this
      simp only [upsertChunks, hf]
      rfl
    | succ j =>
      have h0 : env.upsert ⟨recordId oid i, e, c⟩ = .ok () := by
        have := hok 0 (Nat.succ_pos j) (c, e) (by simp)
        rwa [Nat.add_zero] at this
      have htail : upsertChunks env oid rest (i + 1) =
          (ingestRecords oid (rest.take j) (i + 1), some err) := by
        apply ih (i + 1) j err (by simpa using hj)
        · intro k hk q hq
          have := hok (k + 1) (Nat.succ_lt_succ hk) q (by simpa using hq)
          rwa [show i + (k + 1) = i + 1 + k by omega] at this
        · intro q hq
          have := hfail q (by simpa using hq)
          rwa [show i + (j + 1) = i + 1 + j by omega] at this
      simp only [upsertChunks, h0, htail, List.take_succ_cons, ingestRecords]

/-! Claim C2 (code_bug): main.py raises HTTPException(400) for a missing
drive_id or object_id, but that exception is raised inside the try whose
blanket handler catches every Exception, including HTTPException, and
re-raises it as a 500.  The endpoint therefore answers a server error, not
the client error the raise (and the spec) intends. -/

/-- Claim C2, behaviour at the failing input: whenever drive_id or
object_id is missing or empty, the endpoint responds 500 (never 400), with
the wrapped detail string, and performs no upsert. -/
theorem process_onedrive_document_missing_fields (env : IngestEnv)
    (drive_id object_id : Option String)
    (h : pyTruthyStr drive_id = false ∨ pyTruthyStr object_id = false) :
    (process_onedrive_document env drive_id object_id).status = 500 ∧
    (process_onedrive_document env drive_id object_id).status ≠ 400 ∧
    (process_onedrive_document env drive_id object_id).detail =
      "Internal Server Error: 400: Missing 'drive_id' or 'object_id' in the request body." ∧
    (process_onedrive_document env drive_id object_id).upserts = [] := by
  have hcond : (!pyTruthyStr drive_id || !pyTruthyStr object_id) = true := by
    rcases h with h | h <;> simp [h]
  simp [process_onedrive_document, hcond]

/-- Ingestion environment that would succeed end to end. -/
def idleIngestEnv : IngestEnv :=
  ⟨.ok "", fun _ => .ok [], fun _ => .ok ()⟩

/-- Witness for the claim C2 theorem at the request body with no drive_id:
a 500, not a 400. -/
theorem process_onedrive_document_missing_fields_witness :
    (process_onedrive_document idleIngestEnv none (some "doc")).status = 500 ∧
      (process_onedrive_document idleIngestEnv none (some "doc")).status ≠ 400 ∧
      (process_onedrive_document idleIngestEnv none (some "doc")).detail =
        "Internal Server Error: 400: Missing 'drive_id' or 'object_id' in the request body." ∧
      (process_onedrive_document idleIngestEnv none (some "doc")).upserts = [] :=
  process_onedrive_document_missing_fields idleIngestEnv none (some "doc") (Or.inl rfl)

/-! Claim C7 (confirmed). -/

/-- Claim C7: once a document is loaded and chunked, an embedding failure
aborts ingestion with no chunk upserted, and an upsert failure at chunk
index j aborts the loop with exactly the chunks of index below j upserted,
in chunk-index order, none at or after j, and the request reporting
failure (status 500); the already performed upserts are not rolled back
(they remain in the result's upsert list). -/
theorem process_onedrive_document_abort (env : IngestEnv) (drive_id : Option String)
    (oid doc : String) (chunks : List String)
    (hdrive : pyTruthyStr drive_id = true) (hoid : oid ≠ "")
    (hload : env.load = .ok doc) (hchunks : chunk_text doc 500 = .ok chunks) :
    (∀ msg, env.encode chunks = .error msg →
      process_onedrive_document env drive_id (some oid) =
        ⟨500, "Internal Server Error: " ++ msg, []⟩) ∧
    (∀ (embs : List (List Int)) (j : Nat) (err : String),
      env.encode chunks = .ok embs →
      j < (chunks.zip embs).length →
      (∀ k, k < j → ∀ p, (chunks.zip embs)[k]? = some p →
        env.upsert ⟨recordId oid k, p.2, p.1⟩ = .ok ()) →
      (∀ p, (chunks.zip embs)[j]? = some p →
        env.upsert ⟨recordId oid j, p.2, p.1⟩ = .error err) →
      (process_onedrive_document env drive_id (some oid)).status = 500 ∧
      (process_onedrive_document env drive_id (some oid)).upserts =
        ingestRecords oid ((chunks.zip embs).take j) 0 ∧
      (process_onedrive_document env drive_id (some oid)).upserts.map (fun r => r.id) =
        (List.range j).map (recordId oid)) := by
  have hcond : (!pyTruthyStr drive_id || !pyTruthyStr (some oid)) = false := by
    simp [hdrive, pyTruthyStr_some hoid]
  constructor
  · intro msg hmsg
    simp [process_onedrive_document, hcond, hload, hchunks, hmsg]
  · intro embs j err henc hj hok hfail
    have hloop : upsertChunks env oid (chunks.zip embs) 0 =
        (ingestRecords oid ((chunks.zip embs).take j) 0, some err) := by
      apply upsertChunks_fail env oid (chunks.zip embs) 0 j err hj
      · intro k hk p hp
        rw [Nat.zero_add]
        exact hok k hk p hp
      · intro p hp
        rw [Nat.zero_add]
        exact hfail p hp
    have hrun : process_onedrive_document env drive_id (some oid) =
        ⟨500, "Internal Server Error: " ++ err, ingestRecords oid ((chunks.zip embs).take j) 0⟩ := by
      simp [process_onedrive_document, hcond, hload, hchunks, henc, hloop]
    refine ⟨by rw [hrun], by rw [hrun], ?_⟩
    rw [hrun]
    show (ingestRecords oid ((chunks.zip embs).take j) 0).map (fun r => r.id) = _
    rw [ingestRecords_map_id oid ((chunks.zip embs).take j) 0]
    have hlen : ((chunks.zip embs).take j).length = j := by
      rw [List.length_take]
      omega
    rw [hlen]
    exact List.map_congr_left (fun k _ => by rw [Nat.zero_add])

/-- Ingestion environment whose every upsert raises. -/
def failUpsertEnv : IngestEnv :=
  ⟨.ok "a b c", fun _ => .ok [[7]], fun _ => .error "boom"⟩

/-- Ingestion environment whose encoder raises. -/
def failEncodeEnv : IngestEnv :=
  ⟨.ok "a b c", fun _ => .error "enc", fun _ => .ok ()⟩

/-- Witness for claim C7: an upsert failure at chunk index 0 leaves no
record upserted and reports 500, and an embedding failure likewise upserts
nothing. -/
theorem process_onedrive_document_abort_witness :
    ((process_onedrive_document failUpsertEnv (some "d") (some "doc")).status = 500 ∧
      (process_onedrive_document failUpsertEnv (some "d") (some "doc")).upserts =
        ingestRecords "doc" ((["a b c"].zip [[7]]).take 0) 0 ∧
      (process_onedrive_document failUpsertEnv (some "d") (some "doc")).upserts.map
        (fun r => r.id) = (List.range 0).map (recordId "doc")) ∧
    process_onedrive_document failEncodeEnv (some "d") (some "doc") =
      ⟨500, "Internal Server Error: enc", []⟩ :=
  ⟨(process_onedrive_document_abort failUpsertEnv (some "d") "doc" "a b c" ["a b c"]
      (by rfl) (by decide) (by rfl) (by rfl)).2 [[7]] 0 "boom" (by rfl) (by decide)
      (fun k hk => absurd hk (Nat.not_lt_zero k)) (fun p _ => rfl),
   (process_onedrive_document_abort failEncodeEnv (some "d") "doc" "a b c" ["a b c"]
      (by rfl) (by decide) (by rfl) (by rfl)).1 "enc" rfl⟩

/-! Helper lemmas about the aggregation endpoints. -/

/-- Lookup after one Python dict update duration_map[k] += v. -/
lemma lookup_dictAdd (key k : String) (v : ℚ) :
    ∀ m : List (String × ℚ), List.lookup key (dictAdd m k v) =
      if key = k then some ((List.lookup key m).getD 0 + v) else List.lookup key m := by
  intro m
  induction m with
  | nil =>
    by_cases h : key = k
    · have hb : (key == k) = true := by simp [h]
      simp [dictAdd, List.lookup, hb, h]
    · have hb : (key == k) = false := by simp [h]
      simp [dictAdd, List.lookup, hb, h]
  | cons e rest ih =>
    obtain ⟨k0, v0⟩ := e
    by_cases h0 : k0 = k
    · subst h0
      by_cases h1 : key = k0
      · subst h1
        simp [dictAdd, List.lookup]
      · have hb1 : (key == k0) = false := by simp [h1]
        simp [dictAdd, List.lookup, hb1, h1]
    · have hbk : (k0 == k) = false := by simp [h0]
      by_cases h1 : key = k0
      · have hb1 : (key == k0) = true := by simp [h1]
        have hkk : ¬ key = k := fun hh => h0 (h1.symm.trans hh)
        simp [dictAdd, List.lookup, hbk, hb1, hkk]
      · have hb1 : (key == k0) = false := by simp [h1]
        simp [dictAdd, List.lookup, hbk, hb1, h1, ih]

/-- Lookup after folding the /datatransformation update over a record
list: the total for a key is its total in the initial map plus the sum of
the matching records' durations. -/
lemma lookup_foldl_dictAdd :
    ∀ (rs : List DataRecord) (m : List (String × ℚ)) (key : String),
      List.lookup key
          (rs.foldl (fun acc r => dictAdd acc (itemAppName r) (itemDuration r)) m) =
        if rs.any (fun r => itemAppName r == key) then
          some ((List.lookup key m).getD 0 +
            ((rs.filter (fun r => itemAppName r == key)).map itemDuration).sum)
        else List.lookup key m := by
  intro rs
  induction rs with
  | nil => intro m key; simp
  | cons r rest ih =>
    intro m key
    rw [List.foldl_cons, ih]
    by_cases h : itemAppName r = key
    · have hb : (itemAppName r == key) = true := by simp [h]
      have hL : List.lookup key (dictAdd m (itemAppName r) (itemDuration r)) =
          some ((List.lookup key m).getD 0 + itemDuration r) := by
        rw [lookup_dictAdd key (itemAppName r) (itemDuration r) m, if_pos h.symm]
      rw [List.any_cons, List.filter_cons, hL]
      simp only [hb, Bool.true_or, if_true, List.map_cons, List.sum_cons]
      cases hany : rest.any (fun x => itemAppName x == key) with
      | true =>
        simp only [hany, if_true, Option.getD_some]
        rw [add_assoc]
      | false =>
        have hfilt : rest.filter (fun x => itemAppName x == key) = [] := by
          rw [List.filter_eq_nil_iff]
          intro x hx
          have := List.any_eq_false.mp hany x hx
          simpa using this
        simp [hany, hfilt]
    · have hb : (itemAppName r == key) = false := by simp [h]
      have hne : ¬ key = itemAppName r := fun hh => h hh.symm
      have hL : List.lookup key (dictAdd m (itemAppName r) (itemDuration r)) =
          List.lookup key m := by
        rw [lookup_dictAdd key (itemAppName r) (itemDuration r) m, if_neg hne]
      rw [List.any_cons, List.filter_cons, hL]
      simp only [hb, Bool.false_or, Bool.false_eq_true, if_false]

/-- The summary fold equals the plain aggregation fold over the records
whose application name is truthy. -/
lemma summary_foldl_eq :
    ∀ (rs : List DataRecord) (m : List (String × ℚ)),
      rs.foldl
          (fun acc r =>
            if itemAppName r == "" then acc
            else dictAdd acc (itemAppName r) (itemDuration r)) m =
        (rs.filter (fun r => !(itemAppName r == ""))).foldl
          (fun acc r => dictAdd acc (itemAppName r) (itemDuration r)) m := by
  intro rs
  induction rs with
  | nil => intro m; rfl
  | cons r rest ih =>
    intro m
    rw [List.foldl_cons, List.filter_cons]
    cases hb : itemAppName r == "" with
    | true => simp only [hb, if_true, Bool.not_true, Bool.false_eq_true, if_false, ih]
    | false =>
      simp only [hb, Bool.false_eq_true, if_false, Bool.not_false, if_true,
        List.foldl_cons, ih]

/-! Claim C8 (confirmed). -/

/-- Claim C8: for every record list and key, the /datatransformation
aggregation maps the key to the arithmetic sum of the durations of exactly
the records with that application name (a missing name counting as the
empty string, and a missing or unparsable duration contributing 0 through
itemDuration), and holds no entry for a key no record has. -/
theorem datatransformation_sums (records : List DataRecord) (key : String) :
    List.lookup key (datatransformation records) =
      if records.any (fun r => itemAppName r == key) then
        some (((records.filter (fun r => itemAppName r == key)).map itemDuration).sum)
      else none := by
  unfold datatransformation
  rw [lookup_foldl_dictAdd records [] key]
  cases records.any (fun r => itemAppName r == key) with
  | true => simp
  | false => simp

/-! Claim C10 (confirmed). -/

/-- Claim C10: the /datatransformation_summary aggregation equals the
/datatransformation aggregation over only the records with a truthy
application name; it never holds the empty-string key, agrees with
/datatransformation on every other key, and whenever some record has a
missing or empty application name /datatransformation does hold an
empty-string entry — so the two endpoints disagree exactly on the records
with no application name. -/
theorem datatransformation_summary_spec (records : List DataRecord) :
    datatransformation_summary records =
      datatransformation (records.filter (fun r => !(itemAppName r == ""))) ∧
    List.lookup "" (datatransformation_summary records) = none ∧
    (∀ key : String, key ≠ "" →
      List.lookup key (datatransformation_summary records) =
        List.lookup key (datatransformation records)) ∧
    (records.any (fun r => itemAppName r == "") = true →
      List.lookup "" (datatransformation records) ≠ none) := by
  have hmain : datatransformation_summary records =
      datatransformation (records.filter (fun r => !(itemAppName r == ""))) :=
    summary_foldl_eq records []
  have hnone : List.lookup "" (datatransformation_summary records) = none := by
    rw [hmain]
    unfold datatransformation
    rw [lookup_foldl_dictAdd _ [] ""]
    have : (records.filter (fun r => !(itemAppName r == ""))).any
        (fun r => itemAppName r == "") = false := by
      rw [List.any_filter, List.any_eq_false]
      intro x _
      cases hx : itemAppName x == "" <;> simp [hx]
    rw [this]
    rfl
  refine ⟨hmain, hnone, ?_, ?_⟩
  · intro key hkey
    have hkb : (key == "") = false := by simp [hkey]
    have hpt : ∀ r : DataRecord,
        ((!(itemAppName r == "")) && (itemAppName r == key)) = (itemAppName r == key) := by
      intro r
      cases hk : itemAppName r == key
      · simp
      · have hr : itemAppName r = key := by simpa using hk
        simp [hr, hkb]
    have hpt2 : ∀ r : DataRecord,
        ((itemAppName r == key) && !(itemAppName r == "")) = (itemAppName r == key) := by
      intro r
      rw [Bool.and_comm]
      exact hpt r
    rw [hmain]
    unfold datatransformation
    rw [lookup_foldl_dictAdd _ [] key, lookup_foldl_dictAdd _ [] key, List.any_filter,
      List.filter_filter]
    simp only [hpt, hpt2]
  · intro h
    unfold datatransformation
    rw [lookup_foldl_dictAdd _ [] "", h]
    simp

/-- Three records: one with a missing application name, one named x with
an unparsable duration, one with an empty application name. -/
def demoRecords : List DataRecord :=
  [⟨none, some (.val 3)⟩, ⟨some "x", some .err⟩, ⟨some "", some (.val 5)⟩]

/-- Witness for claim C10 at demoRecords: the summary equals the
aggregation of the name-bearing records, holds no empty-name entry and
agrees on the key x, while /datatransformation does hold an empty-name
entry for the same input. -/
theorem datatransformation_summary_spec_witness :
    datatransformation_summary demoRecords =
      datatransformation (demoRecords.filter (fun r => !(itemAppName r == ""))) ∧
      List.lookup "" (datatransformation_summary demoRecords) = none ∧
      List.lookup "x" (datatransformation_summary demoRecords) =
        List.lookup "x" (datatransformation demoRecords) ∧
      List.lookup "" (datatransformation demoRecords) ≠ none :=
  ⟨(datatransformation_summary_spec demoRecords).1,
   (datatransformation_summary_spec demoRecords).2.1,
   (datatransformation_summary_spec demoRecords).2.2.1 "x" (by decide),
   (datatransformation_summary_spec demoRecords).2.2.2 (by decide)⟩

end OneDriveRag
